import Mathlib

/-!
Shallow embedding of the CoordinateConversions repository (Go): the TMS
Global Mercator profile (src/Mercator/GlobalMercator.go) and the TMS
Global Geodetic profile. Floating-point arithmetic is embedded over the
real numbers; the Go `uint` truncation and 64-bit wrap in PixelsToRaster
is embedded over the naturals with an explicit modulus.
-/

open Real

/-- The GlobalMercator struct: tileSize plus the two derived constants
stored at construction time. -/
structure GlobalMercator where
  tileSize : ℝ
  initialResolution : ℝ
  originShift : ℝ

/-- NewGlobalMercator: initialResolution = 2 pi 6378137 / tileSize,
originShift = 2 pi 6378137 / 2. -/
noncomputable def NewGlobalMercator (tileSize : ℝ) : GlobalMercator :=
  ⟨tileSize, 2 * Real.pi * 6378137 / tileSize, 2 * Real.pi * 6378137 / 2⟩

/-- LatLonToMeters: mx = lon*originShift/180,
my = (log(tan((90+lat)*pi/360)) / (pi/180)) * originShift/180. -/
noncomputable def GlobalMercator.LatLonToMeters (g : GlobalMercator) (lat lon : ℝ) : ℝ × ℝ :=
  (lon * g.originShift / 180,
   Real.log (Real.tan ((90 + lat) * Real.pi / 360)) / (Real.pi / 180) * g.originShift / 180)

/-- MetersToLatLon: lon = (mx/originShift)*180, and with latp = (my/originShift)*180,
lat = 180/pi * (2*atan(exp(latp*pi/180)) - pi/2); returns (lat, lon). -/
noncomputable def GlobalMercator.MetersToLatLon (g : GlobalMercator) (mx my : ℝ) : ℝ × ℝ :=
  (180 / Real.pi *
      (2 * Real.arctan (Real.exp (my / g.originShift * 180 * (Real.pi / 180))) - Real.pi / 2),
   mx / g.originShift * 180)

/-- Resolution: initialResolution / 2^zoom (math.Pow on an integer zoom). -/
noncomputable def GlobalMercator.Resolution (g : GlobalMercator) (zoom : ℤ) : ℝ :=
  g.initialResolution / 2 ^ zoom

/-- PixelsToMeters: mx = px*Resolution(zoom) - originShift, likewise my. -/
noncomputable def GlobalMercator.PixelsToMeters (g : GlobalMercator) (px py : ℝ) (zoom : ℤ) :
    ℝ × ℝ :=
  (px * g.Resolution zoom - g.originShift, py * g.Resolution zoom - g.originShift)

/-- MetersToPixels: px = (mx+originShift)/Resolution(zoom), likewise py. -/
noncomputable def GlobalMercator.MetersToPixels (g : GlobalMercator) (mx my : ℝ) (zoom : ℤ) :
    ℝ × ℝ :=
  ((mx + g.originShift) / g.Resolution zoom, (my + g.originShift) / g.Resolution zoom)

/-- PixelsToTile: tx = ceil(px/tileSize) - 1, ty = ceil(py/tileSize) - 1,
the integer-valued float converted to int64. -/
noncomputable def GlobalMercator.PixelsToTile (g : GlobalMercator) (px py : ℝ) : ℤ × ℤ :=
  (Int.ceil (px / g.tileSize) - 1, Int.ceil (py / g.tileSize) - 1)

/-- The mapSize computed by PixelsToRaster: uint(tileSize) << uint(zoom) on a
64-bit platform. uint truncation of a nonnegative float is Nat.floor; a Go
left shift of a 64-bit uint is multiplication reduced mod 2^64 (shift counts
of 64 or more, which also arise from uint(zoom) for negative zoom, give 0,
and the modulus formula agrees since 2^64 then divides the product). -/
noncomputable def GlobalMercator.mapSize (g : GlobalMercator) (zoom : ℤ) : ℕ :=
  if 0 ≤ zoom then Nat.floor g.tileSize * 2 ^ zoom.toNat % 2 ^ 64 else 0

/-- PixelsToRaster: returns (px, float64(mapSize) - py). -/
noncomputable def GlobalMercator.PixelsToRaster (g : GlobalMercator) (px py : ℝ) (zoom : ℤ) :
    ℝ × ℝ :=
  (px, (g.mapSize zoom : ℝ) - py)

/-- The scan loop of ZoomForPixelSize: iterates i upward while fuel remains,
returning as the Go code does at the first i with pixelSize > Resolution(i);
falling off the loop end (the Go function has no return there) is none. -/
noncomputable def GlobalMercator.zoomScan (g : GlobalMercator) (pixelSize : ℝ) :
    ℕ → ℕ → Option ℤ
  | 0, _ => none
  | fuel + 1, i =>
    if g.Resolution (i : ℤ) < pixelSize then
      if i ≠ 0 then some 0 else some ((i : ℤ) - 1)
    else g.zoomScan pixelSize fuel (i + 1)

/-- ZoomForPixelSize: the for-loop for i in 0..29. -/
noncomputable def GlobalMercator.ZoomForPixelSize (g : GlobalMercator) (pixelSize : ℝ) :
    Option ℤ :=
  g.zoomScan pixelSize 30 0

/-- The GlobalGeodetic struct: only tileSize. -/
structure GlobalGeodetic where
  tileSize : ℝ

/-- NewGlobalGeodetic: takes an int64 tile size and stores it as float64. -/
def NewGlobalGeodetic (tileSize : ℤ) : GlobalGeodetic :=
  ⟨(tileSize : ℝ)⟩

/-- Geodetic LatLonToPixels: res = 180/256/2^zoom, px = (180+lat)/res,
py = (90+lon)/res. -/
noncomputable def GlobalGeodetic.LatLonToPixels (g : GlobalGeodetic) (lat lon : ℝ) (zoom : ℤ) :
    ℝ × ℝ :=
  ((180 + lat) / (180 / 256 / 2 ^ zoom), (90 + lon) / (180 / 256 / 2 ^ zoom))

/-- Geodetic PixelsToTile: same ceiling formula as the Mercator profile,
using the configured tileSize. -/
noncomputable def GlobalGeodetic.PixelsToTile (g : GlobalGeodetic) (px py : ℝ) : ℤ × ℤ :=
  (Int.ceil (px / g.tileSize) - 1, Int.ceil (py / g.tileSize) - 1)

/-- Geodetic Resolution: 180/256/2^zoom, the divisor 256 is a fixed literal. -/
noncomputable def GlobalGeodetic.Resolution (g : GlobalGeodetic) (zoom : ℤ) : ℝ :=
  180 / 256 / 2 ^ zoom

/-- Geodetic TileBounds: with res = 180/256/2^zoom, returns
(tx*256*res - 180, ty*256*res - 90, (tx+1)*256*res - 180, (ty+1)*256*res - 90). -/
noncomputable def GlobalGeodetic.TileBounds (g : GlobalGeodetic) (tx ty : ℝ) (zoom : ℤ) :
    ℝ × ℝ × ℝ × ℝ :=
  (tx * 256 * (180 / 256 / 2 ^ zoom) - 180, ty * 256 * (180 / 256 / 2 ^ zoom) - 90,
   (tx + 1) * 256 * (180 / 256 / 2 ^ zoom) - 180, (ty + 1) * 256 * (180 / 256 / 2 ^ zoom) - 90)

/-- Characterization of the scan loop: if k is the first index at or after i
(and within fuel steps) where pixelSize exceeds the resolution, the loop
returns -1 when k = 0 and 0 otherwise. -/
lemma GlobalMercator.zoomScan_found (g : GlobalMercator) (p : ℝ) (fuel : ℕ) :
    ∀ i k : ℕ, i ≤ k → k < i + fuel → g.Resolution (k : ℤ) < p →
      (∀ j : ℕ, i ≤ j → j < k → ¬ g.Resolution (j : ℤ) < p) →
      g.zoomScan p fuel i = some (if k = 0 then -1 else 0) := by
  induction fuel with
  | zero => intro i k hik hk _ _; omega
  | succ fuel ih =>
    intro i k hik hk hcross hmin
    rw [GlobalMercator.zoomScan]
    by_cases hi : g.Resolution (i : ℤ) < p
    · have hki : k = i := by
        by_contra hne
        exact hmin i le_rfl (by omega) hi
      subst hki
      rw [if_pos hi]
      by_cases h0 : k = 0
      · subst h0; norm_num
      · simp [h0]
    · rw [if_neg hi]
      have hik2 : i + 1 ≤ k := by
        rcases Nat.eq_or_lt_of_le hik with h | h
        · exact absurd (h ▸ hcross) hi
        · omega
      exact ih (i + 1) k hik2 (by omega) hcross fun j hj1 hj2 => hmin j (by omega) hj2

/-- C2: for pixelSize admitting a least zoom i in 0..29 with
pixelSize > Resolution(i), ZoomForPixelSize returns i - 1 (that is, -1)
when i = 0, and returns 0 when i is nonzero. -/
theorem zoomForPixelSize_first_crossing (g : GlobalMercator) (p : ℝ) (k : ℕ)
    (hk : k < 30) (hcross : g.Resolution (k : ℤ) < p)
    (hmin : ∀ j : ℕ, j < k → ¬ g.Resolution (j : ℤ) < p) :
    g.ZoomForPixelSize p = some (if k = 0 then -1 else 0) :=
  g.zoomScan_found p 30 0 k (Nat.zero_le k) (by omega) hcross fun j _ hj => hmin j hj

/-- C2 witness: tileSize 256, pixelSize 10^9 crosses at zoom 0 and the
function returns -1. -/
theorem zoomForPixelSize_first_crossing_witness :
    ((0:ℕ) < 30 ∧ (NewGlobalMercator 256).Resolution ((0:ℕ) : ℤ) < 1000000000) ∧
    (NewGlobalMercator 256).ZoomForPixelSize 1000000000 = some (-1) := by
  have hcross : (NewGlobalMercator 256).Resolution ((0:ℕ) : ℤ) < 1000000000 := by
    simp only [GlobalMercator.Resolution, NewGlobalMercator, Nat.cast_zero, zpow_zero]
    nlinarith [Real.pi_lt_four]
  refine ⟨⟨by norm_num, hcross⟩, ?_⟩
  have h := zoomForPixelSize_first_crossing (NewGlobalMercator 256) 1000000000 0
    (by norm_num) hcross (fun j hj => absurd hj (Nat.not_lt_zero j))
  simpa using h

/-- Positivity of the initial resolution for a positive tile size. -/
lemma initialResolution_pos (ts : ℝ) (h : 0 < ts) :
    0 < (NewGlobalMercator ts).initialResolution := by
  simp only [NewGlobalMercator]
  positivity

/-- C1 counterexample: with tileSize 256 and pixelSize = Resolution(1), zoom 1
qualifies (Resolution(1) ≥ pixelSize), so the maximal qualifying zoom is at
least 1, yet ZoomForPixelSize returns 0, not that maximal zoom. -/
theorem zoomForPixelSize_not_maximal_cex :
    (NewGlobalMercator 256).Resolution 1 ≥ (NewGlobalMercator 256).Resolution 1 ∧
    (NewGlobalMercator 256).ZoomForPixelSize ((NewGlobalMercator 256).Resolution 1) =
      some 0 := by
  have hir : 0 < (NewGlobalMercator 256).initialResolution :=
    initialResolution_pos 256 (by norm_num)
  refine ⟨le_refl _, ?_⟩
  have h := GlobalMercator.zoomScan_found (NewGlobalMercator 256)
    ((NewGlobalMercator 256).Resolution 1) 30 0 2 (Nat.zero_le 2) (by omega) ?_ ?_
  · simpa using h
  · show (NewGlobalMercator 256).initialResolution / 2 ^ ((2:ℕ) : ℤ) <
      (NewGlobalMercator 256).initialResolution / 2 ^ (1 : ℤ)
    rw [show (((2:ℕ)) : ℤ) = 2 by norm_num]
    rw [div_lt_div_iff₀ (by positivity) (by positivity)]
    nlinarith [hir]
  · intro j _ hj
    interval_cases j
    · show ¬ (NewGlobalMercator 256).initialResolution / 2 ^ ((0:ℕ) : ℤ) <
        (NewGlobalMercator 256).initialResolution / 2 ^ (1 : ℤ)
      rw [show (((0:ℕ)) : ℤ) = 0 by norm_num, not_lt]
      rw [div_le_div_iff₀ (by positivity) (by positivity)]
      nlinarith [hir]
    · show ¬ (NewGlobalMercator 256).initialResolution / 2 ^ ((1:ℕ) : ℤ) <
        (NewGlobalMercator 256).initialResolution / 2 ^ (1 : ℤ)
      rw [show (((1:ℕ)) : ℤ) = 1 by norm_num]
      exact lt_irrefl _

/-- C1 amended: whenever some zoom in 0..29 qualifies (pixelSize ≤
Resolution(0)) and the scan does find a crossing (Resolution(29) < pixelSize),
ZoomForPixelSize returns 0 — it does not in general return the maximal zoom z
with Resolution(z) ≥ pixelSize; when pixelSize ≤ Resolution(29) no crossing is
found and the function has no defined result. -/
theorem zoomForPixelSize_in_range_returns_zero (g : GlobalMercator) (p : ℝ)
    (h29 : g.Resolution 29 < p) (h0 : p ≤ g.Resolution 0) :
    g.ZoomForPixelSize p = some 0 := by
  classical
  have hex : ∃ k : ℕ, g.Resolution (k : ℤ) < p := ⟨29, by exact_mod_cast h29⟩
  have hcross : g.Resolution ((Nat.find hex : ℕ) : ℤ) < p := Nat.find_spec hex
  have hk29 : Nat.find hex ≤ 29 := Nat.find_min' hex (by exact_mod_cast h29)
  have hk0 : Nat.find hex ≠ 0 := by
    intro h
    rw [h] at hcross
    exact absurd h0 (not_le.mpr (by exact_mod_cast hcross))
  have h := g.zoomScan_found p 30 0 (Nat.find hex) (Nat.zero_le _) (by omega) hcross
    fun j _ hj => Nat.find_min hex hj
  rwa [if_neg hk0] at h

/-- C1 amended witness: tileSize 256 and pixelSize = Resolution(1) satisfy
Resolution(29) < pixelSize ≤ Resolution(0), and the result is 0. -/
theorem zoomForPixelSize_in_range_returns_zero_witness :
    ((NewGlobalMercator 256).Resolution 29 < (NewGlobalMercator 256).Resolution 1 ∧
      (NewGlobalMercator 256).Resolution 1 ≤ (NewGlobalMercator 256).Resolution 0) ∧
    (NewGlobalMercator 256).ZoomForPixelSize ((NewGlobalMercator 256).Resolution 1) =
      some 0 := by
  have hir : 0 < (NewGlobalMercator 256).initialResolution :=
    initialResolution_pos 256 (by norm_num)
  have h29 : (NewGlobalMercator 256).Resolution 29 < (NewGlobalMercator 256).Resolution 1 := by
    show (NewGlobalMercator 256).initialResolution / 2 ^ (29 : ℤ) <
      (NewGlobalMercator 256).initialResolution / 2 ^ (1 : ℤ)
    rw [div_lt_div_iff₀ (by positivity) (by positivity)]
    nlinarith [hir]
  have h0 : (NewGlobalMercator 256).Resolution 1 ≤ (NewGlobalMercator 256).Resolution 0 := by
    show (NewGlobalMercator 256).initialResolution / 2 ^ (1 : ℤ) ≤
      (NewGlobalMercator 256).initialResolution / 2 ^ (0 : ℤ)
    rw [div_le_div_iff₀ (by positivity) (by positivity)]
    nlinarith [hir]
  exact ⟨⟨h29, h0⟩, zoomForPixelSize_in_range_returns_zero (NewGlobalMercator 256)
    ((NewGlobalMercator 256).Resolution 1) h29 h0⟩

/-- C3: for -85 < lat < 85 and -180 < lon < 180, MetersToLatLon inverts
LatLonToMeters exactly over the real-valued embedding. -/
theorem latLonToMeters_roundtrip (ts lat lon : ℝ)
    (hlat1 : -85 < lat) (hlat2 : lat < 85) (hlon1 : -180 < lon) (hlon2 : lon < 180) :
    (NewGlobalMercator ts).MetersToLatLon
      ((NewGlobalMercator ts).LatLonToMeters lat lon).1
      ((NewGlobalMercator ts).LatLonToMeters lat lon).2 = (lat, lon) := by
  have hpi := Real.pi_pos
  have hos : (NewGlobalMercator ts).originShift = Real.pi * 6378137 := by
    simp only [NewGlobalMercator]; ring
  have hosne : (NewGlobalMercator ts).originShift ≠ 0 := by
    rw [hos]; positivity
  have h90 : (0:ℝ) < 90 + lat := by linarith
  have hθ1 : 0 < (90 + lat) * Real.pi / 360 :=
    div_pos (mul_pos h90 hpi) (by norm_num)
  have hθ2 : (90 + lat) * Real.pi / 360 < Real.pi / 2 := by
    rw [div_lt_div_iff₀ (by norm_num) (by norm_num)]
    nlinarith [mul_pos hpi (show (0:ℝ) < 90 - lat by linarith)]
  have htan : 0 < Real.tan ((90 + lat) * Real.pi / 360) :=
    Real.tan_pos_of_pos_of_lt_pi_div_two hθ1 hθ2
  simp only [GlobalMercator.LatLonToMeters, GlobalMercator.MetersToLatLon, Prod.mk.injEq]
  constructor
  · have harg : Real.log (Real.tan ((90 + lat) * Real.pi / 360)) / (Real.pi / 180) *
        (NewGlobalMercator ts).originShift / 180 / (NewGlobalMercator ts).originShift * 180 *
        (Real.pi / 180) = Real.log (Real.tan ((90 + lat) * Real.pi / 360)) := by
      field_simp
      ring
    rw [harg, Real.exp_log htan, Real.arctan_tan (by linarith) hθ2]
    have hlin : 2 * ((90 + lat) * Real.pi / 360) - Real.pi / 2 = lat * Real.pi / 180 := by
      ring
    rw [hlin]
    field_simp
    ring
  · field_simp
    ring

/-- C3 witness: the round trip at tileSize 256, lat = 0, lon = 0. -/
theorem latLonToMeters_roundtrip_witness :
    ((-85:ℝ) < 0 ∧ (0:ℝ) < 85 ∧ (-180:ℝ) < 0 ∧ (0:ℝ) < 180) ∧
    (NewGlobalMercator 256).MetersToLatLon
      ((NewGlobalMercator 256).LatLonToMeters 0 0).1
      ((NewGlobalMercator 256).LatLonToMeters 0 0).2 = (0, 0) :=
  ⟨⟨by norm_num, by norm_num, by norm_num, by norm_num⟩,
    latLonToMeters_roundtrip 256 0 0 (by norm_num) (by norm_num) (by norm_num) (by norm_num)⟩

/-- C4: for a positive tile size and zoom ≥ 0, MetersToPixels at the same
zoom inverts PixelsToMeters exactly over the real-valued embedding. -/
theorem metersToPixels_roundtrip (ts px py : ℝ) (zoom : ℤ) (hts : 0 < ts) (hz : 0 ≤ zoom) :
    (NewGlobalMercator ts).MetersToPixels
      ((NewGlobalMercator ts).PixelsToMeters px py zoom).1
      ((NewGlobalMercator ts).PixelsToMeters px py zoom).2 zoom = (px, py) := by
  have hres : (NewGlobalMercator ts).Resolution zoom ≠ 0 := by
    have : 0 < 2 * Real.pi * 6378137 / ts / 2 ^ zoom :=
      div_pos (div_pos (by positivity) hts) (zpow_pos (by norm_num) zoom)
    simp only [GlobalMercator.Resolution, NewGlobalMercator]
    exact ne_of_gt this
  simp only [GlobalMercator.PixelsToMeters, GlobalMercator.MetersToPixels, Prod.mk.injEq]
  constructor
  · rw [show px * (NewGlobalMercator ts).Resolution zoom - (NewGlobalMercator ts).originShift +
      (NewGlobalMercator ts).originShift = px * (NewGlobalMercator ts).Resolution zoom by ring]
    exact mul_div_cancel_right₀ px hres
  · rw [show py * (NewGlobalMercator ts).Resolution zoom - (NewGlobalMercator ts).originShift +
      (NewGlobalMercator ts).originShift = py * (NewGlobalMercator ts).Resolution zoom by ring]
    exact mul_div_cancel_right₀ py hres

/-- C4 witness: tileSize 256, zoom 3, pixel (100, 200). -/
theorem metersToPixels_roundtrip_witness :
    ((0:ℝ) < 256 ∧ (0:ℤ) ≤ 3) ∧
    (NewGlobalMercator 256).MetersToPixels
      ((NewGlobalMercator 256).PixelsToMeters 100 200 3).1
      ((NewGlobalMercator 256).PixelsToMeters 100 200 3).2 3 = (100, 200) :=
  ⟨⟨by norm_num, by norm_num⟩,
    metersToPixels_roundtrip 256 100 200 3 (by norm_num) (by norm_num)⟩

/-- C5: for every zoom ≥ 0, the resolution halves with each zoom increment,
for both the Mercator and the Geodetic profile. -/
theorem resolution_halves (gm : GlobalMercator) (gg : GlobalGeodetic) (zoom : ℤ)
    (hz : 0 ≤ zoom) :
    gm.Resolution (zoom + 1) = gm.Resolution zoom / 2 ∧
    gg.Resolution (zoom + 1) = gg.Resolution zoom / 2 := by
  constructor
  · simp only [GlobalMercator.Resolution]
    rw [zpow_add_one₀ two_ne_zero, ← div_div]
  · simp only [GlobalGeodetic.Resolution]
    rw [zpow_add_one₀ two_ne_zero, ← div_div]

/-- C5 witness: both profiles at tile size 256 and zoom 0. -/
theorem resolution_halves_witness :
    ((0:ℤ) ≤ 0) ∧
    (NewGlobalMercator 256).Resolution (0 + 1) = (NewGlobalMercator 256).Resolution 0 / 2 ∧
    (NewGlobalGeodetic 256).Resolution (0 + 1) = (NewGlobalGeodetic 256).Resolution 0 / 2 :=
  ⟨le_refl 0, resolution_halves (NewGlobalMercator 256) (NewGlobalGeodetic 256) 0 (le_refl 0)⟩

/-- C10: for every input, the latitude returned by MetersToLatLon lies
strictly between -90 and 90 degrees. -/
theorem metersToLatLon_lat_bounded (g : GlobalMercator) (mx my : ℝ) :
    -90 < (g.MetersToLatLon mx my).1 ∧ (g.MetersToLatLon mx my).1 < 90 := by
  have hpi := Real.pi_pos
  simp only [GlobalMercator.MetersToLatLon]
  set x := my / g.originShift * 180 * (Real.pi / 180) with hx
  have ha1 : 0 < Real.arctan (Real.exp x) := by
    rw [← Real.arctan_zero]
    exact Real.arctan_strictMono (Real.exp_pos x)
  have ha2 : Real.arctan (Real.exp x) < Real.pi / 2 := Real.arctan_lt_pi_div_two _
  constructor
  · rw [div_mul_eq_mul_div, lt_div_iff₀ hpi]
    nlinarith
  · rw [div_mul_eq_mul_div, div_lt_iff₀ hpi]
    nlinarith

/-- C6: Geodetic LatLonToPixels maps latitude to the [-180,180] axis and
longitude to the [-90,90] axis with res = 180/256/2^zoom; at
(51.5287718, -0.2416819, zoom 2) it gives px within 0.001 of 1317.141 and
py within 0.001 of 510.625, and PixelsToTile at tileSize 256 puts
(1317.141, 510.625) in tile (5, 1). -/
theorem geodetic_latLonToPixels_spec :
    (∀ (g : GlobalGeodetic) (lat lon : ℝ) (zoom : ℤ),
        g.LatLonToPixels lat lon zoom =
          ((180 + lat) / (180 / 256 / 2 ^ zoom), (90 + lon) / (180 / 256 / 2 ^ zoom))) ∧
    |((NewGlobalGeodetic 256).LatLonToPixels 51.5287718 (-0.2416819) 2).1 - 1317.141| <
      0.001 ∧
    |((NewGlobalGeodetic 256).LatLonToPixels 51.5287718 (-0.2416819) 2).2 - 510.625| <
      0.001 ∧
    (NewGlobalGeodetic 256).PixelsToTile 1317.141 510.625 = (5, 1) := by
  refine ⟨fun g lat lon zoom => rfl, ?_, ?_, ?_⟩
  · simp only [GlobalGeodetic.LatLonToPixels]
    rw [abs_lt]
    norm_num
  · simp only [GlobalGeodetic.LatLonToPixels]
    rw [abs_lt]
    norm_num
  · simp only [GlobalGeodetic.PixelsToTile, NewGlobalGeodetic, Prod.mk.injEq]
    have h1 : Int.ceil ((1317.141:ℝ) / ((256:ℤ) : ℝ)) = 6 := by
      rw [Int.ceil_eq_iff]
      push_cast
      norm_num
    have h2 : Int.ceil ((510.625:ℝ) / ((256:ℤ) : ℝ)) = 2 := by
      rw [Int.ceil_eq_iff]
      push_cast
      norm_num
    rw [h1, h2]
    norm_num

/-- C7: Geodetic Resolution and TileBounds do not depend on the configured
tileSize — two instances with any positive tile sizes agree everywhere, and
Resolution(zoom) = 180/256/2^zoom with the fixed divisor 256. -/
theorem geodetic_tileSize_independent (t1 t2 : ℤ) (h1 : 0 < t1) (h2 : 0 < t2)
    (zoom : ℤ) (hz : 0 ≤ zoom) (tx ty : ℝ) :
    (NewGlobalGeodetic t1).Resolution zoom = (NewGlobalGeodetic t2).Resolution zoom ∧
    (NewGlobalGeodetic t1).TileBounds tx ty zoom =
      (NewGlobalGeodetic t2).TileBounds tx ty zoom ∧
    (NewGlobalGeodetic t1).Resolution zoom = 180 / 256 / 2 ^ zoom :=
  ⟨rfl, rfl, rfl⟩

/-- C7 witness: tile sizes 256 and 512 at zoom 0, tile (0, 0). -/
theorem geodetic_tileSize_independent_witness :
    ((0:ℤ) < 256 ∧ (0:ℤ) < 512 ∧ (0:ℤ) ≤ 0) ∧
    (NewGlobalGeodetic 256).Resolution 0 = (NewGlobalGeodetic 512).Resolution 0 ∧
    (NewGlobalGeodetic 256).TileBounds 0 0 0 = (NewGlobalGeodetic 512).TileBounds 0 0 0 ∧
    (NewGlobalGeodetic 256).Resolution 0 = 180 / 256 / 2 ^ (0:ℤ) :=
  ⟨⟨by norm_num, by norm_num, le_refl 0⟩,
    geodetic_tileSize_independent 256 512 (by norm_num) (by norm_num) 0 (le_refl 0) 0 0⟩

/-- C8: for positive tile sizes, PixelsToTile is (ceil(px/tileSize) - 1,
ceil(py/tileSize) - 1) in both profiles; pixel coordinate 0 lands in tile
-1, and a boundary pixel k*tileSize (k ≥ 1) lands in tile k - 1. -/
theorem pixelsToTile_spec (gm : GlobalMercator) (gg : GlobalGeodetic) (px py : ℝ) (k : ℤ)
    (hm : 0 < gm.tileSize) (hg : 0 < gg.tileSize) (hk : 1 ≤ k) :
    gm.PixelsToTile px py =
      (Int.ceil (px / gm.tileSize) - 1, Int.ceil (py / gm.tileSize) - 1) ∧
    gg.PixelsToTile px py =
      (Int.ceil (px / gg.tileSize) - 1, Int.ceil (py / gg.tileSize) - 1) ∧
    (gm.PixelsToTile 0 py).1 = -1 ∧ (gg.PixelsToTile 0 py).1 = -1 ∧
    (gm.PixelsToTile ((k : ℝ) * gm.tileSize) py).1 = k - 1 ∧
    (gg.PixelsToTile ((k : ℝ) * gg.tileSize) py).1 = k - 1 := by
  refine ⟨rfl, rfl, ?_, ?_, ?_, ?_⟩
  · simp [GlobalMercator.PixelsToTile]
  · simp [GlobalGeodetic.PixelsToTile]
  · show Int.ceil ((k : ℝ) * gm.tileSize / gm.tileSize) - 1 = k - 1
    rw [mul_div_cancel_right₀ _ (ne_of_gt hm), Int.ceil_intCast]
  · show Int.ceil ((k : ℝ) * gg.tileSize / gg.tileSize) - 1 = k - 1
    rw [mul_div_cancel_right₀ _ (ne_of_gt hg), Int.ceil_intCast]

/-- C8 witness: both profiles at tile size 256, pixel (0, 0), k = 1. -/
theorem pixelsToTile_spec_witness :
    ((0:ℝ) < (NewGlobalMercator 256).tileSize ∧
      (0:ℝ) < (NewGlobalGeodetic 256).tileSize ∧ (1:ℤ) ≤ 1) ∧
    (NewGlobalMercator 256).PixelsToTile 0 0 =
      (Int.ceil ((0:ℝ) / (NewGlobalMercator 256).tileSize) - 1,
        Int.ceil ((0:ℝ) / (NewGlobalMercator 256).tileSize) - 1) ∧
    (NewGlobalGeodetic 256).PixelsToTile 0 0 =
      (Int.ceil ((0:ℝ) / (NewGlobalGeodetic 256).tileSize) - 1,
        Int.ceil ((0:ℝ) / (NewGlobalGeodetic 256).tileSize) - 1) ∧
    ((NewGlobalMercator 256).PixelsToTile 0 0).1 = -1 ∧
    ((NewGlobalGeodetic 256).PixelsToTile 0 0).1 = -1 ∧
    ((NewGlobalMercator 256).PixelsToTile (((1:ℤ) : ℝ) * (NewGlobalMercator 256).tileSize)
        0).1 = 1 - 1 ∧
    ((NewGlobalGeodetic 256).PixelsToTile (((1:ℤ) : ℝ) * (NewGlobalGeodetic 256).tileSize)
        0).1 = 1 - 1 :=
  ⟨⟨by norm_num [NewGlobalMercator], by norm_num [NewGlobalGeodetic], le_refl 1⟩,
    pixelsToTile_spec (NewGlobalMercator 256) (NewGlobalGeodetic 256) 0 0 1
      (by norm_num [NewGlobalMercator]) (by norm_num [NewGlobalGeodetic]) (le_refl 1)⟩

/-- C9 counterexample: with the positive but fractional tileSize 513/2, at
zoom 0 and pixel (0, 0), PixelsToRaster computes rasterY = 256 from the
truncated uint(tileSize), while tileSize * 2^zoom = 513/2 ≠ 256. -/
theorem pixelsToRaster_fractional_tileSize_cex :
    (0:ℝ) < (NewGlobalMercator (513/2)).tileSize ∧
    (NewGlobalMercator (513/2)).PixelsToRaster 0 0 0 = (0, 256) ∧
    (256:ℝ) ≠ (NewGlobalMercator (513/2)).tileSize * 2 ^ (0:ℤ) := by
  refine ⟨by norm_num [NewGlobalMercator], ?_, by norm_num [NewGlobalMercator]⟩
  simp only [GlobalMercator.PixelsToRaster, GlobalMercator.mapSize, Prod.mk.injEq]
  have hfloor : Nat.floor ((NewGlobalMercator (513/2)).tileSize) = 256 := by
    rw [show (NewGlobalMercator (513/2)).tileSize = (513:ℝ)/2 from rfl,
      Nat.floor_eq_iff (by norm_num)]
    norm_num
  rw [if_pos (le_refl (0:ℤ)), hfloor]
  norm_num

/-- C9 amended: PixelsToRaster returns (px, tileSize * 2^zoom - py) provided
the positive tileSize is an exact integer n and n * 2^zoom stays below 2^64,
so that the uint truncation and the 64-bit wrap in
uint(tileSize) << uint(zoom) are the identity; a fractional tileSize is first
truncated and a product of 2^64 or more is reduced mod 2^64. -/
theorem pixelsToRaster_spec (ts px py : ℝ) (n : ℕ) (zoom : ℤ)
    (hts : 0 < ts) (hn : ts = (n : ℝ)) (hz : 0 ≤ zoom)
    (hlt : n * 2 ^ zoom.toNat < 2 ^ 64) :
    (NewGlobalMercator ts).PixelsToRaster px py zoom = (px, ts * 2 ^ zoom - py) := by
  simp only [GlobalMercator.PixelsToRaster, GlobalMercator.mapSize, Prod.mk.injEq]
  refine ⟨trivial, ?_⟩
  rw [if_pos hz]
  have hfloor : Nat.floor ((NewGlobalMercator ts).tileSize) = n := by
    rw [show (NewGlobalMercator ts).tileSize = ts from rfl, hn, Nat.floor_natCast]
  rw [hfloor, Nat.mod_eq_of_lt hlt]
  have hpow : (2:ℝ) ^ zoom = (2:ℝ) ^ zoom.toNat := by
    rw [← zpow_natCast, Int.toNat_of_nonneg hz]
  rw [hn, hpow]
  push_cast
  ring

/-- C9 amended witness: tileSize 256 (integer, no wrap at zoom 1), pixel
(3, 7): the raster point is (3, 512 - 7). -/
theorem pixelsToRaster_spec_witness :
    ((0:ℝ) < 256 ∧ (256:ℝ) = ((256:ℕ) : ℝ) ∧ (0:ℤ) ≤ 1 ∧
      256 * 2 ^ (1:ℤ).toNat < 2 ^ 64) ∧
    (NewGlobalMercator 256).PixelsToRaster 3 7 1 = (3, 256 * 2 ^ (1:ℤ) - 7) :=
  ⟨⟨by norm_num, by norm_num, by norm_num, by norm_num⟩,
    pixelsToRaster_spec 256 3 7 256 1 (by norm_num) (by norm_num) (by norm_num)
      (by norm_num)⟩
